import Mathlib

/-!
Shallow embedding of the taskade GraphQL backend (src/index.js).

The server is a thin resolver layer over a MongoDB document store.  We model
the two collections (`Users`, `Tasks`) as lists of records inside a `Store`
structure, together with a fresh-id counter standing for MongoDB ObjectId
generation and a clock string for `new Date().toISOString()`.

External libraries are modelled by their contracts:
* `bcryptjs`: `hashSync` is an injective tagging function, `compareSync p h`
  checks `h = hashSync p`;
* `jsonwebtoken`: a `Token` is either a well-signed token carrying a payload
  (the `{ id }` object signed by `getToken`), or a malformed / wrongly signed /
  expired string on which `jwt.verify` THROWS (the library's documented
  behaviour);
* MongoDB: `findOne` returns the first match or null; `findOneAndUpdate`
  without options updates the first match but returns the ORIGINAL document
  (`returnOriginal` defaults to true); `deleteOne` removes the first match;
  `updateOne` with `$push` appends to the array of the first match;
  `insertOne` assigns a fresh `_id`.

Resolvers take the request context's `user : Option User` (built by
`getUserFromToken`) and the store, and return `(Except String α) × Store`:
a JS `throw` is `.error msg` with the store unchanged from the point of the
throw.
-/

namespace Taskade

/-- A document of the `Users` collection: `_id`, `name`, `email`,
`password` (the bcrypt hash), optional `avatar`. -/
structure User where
  _id : Nat
  name : String
  email : String
  password : String
  avatar : Option String
deriving Repr, DecidableEq

/-- A document of the `Tasks` collection: `_id`, `title`, `createdAt`,
`userIds` (the member list). -/
structure Task where
  _id : Nat
  title : String
  createdAt : String
  userIds : List Nat
deriving Repr, DecidableEq

/-- The document store: both collections, the ObjectId generator state and
the current time (for `new Date().toISOString()`). -/
structure Store where
  users : List User
  tasks : List Task
  nextId : Nat
  now : String
deriving Repr, DecidableEq

/-- `bcrypt.hashSync`: modelled as an injective salted-hash tag. -/
def hashSync (password : String) : String := "$2a$10$" ++ password

/-- `bcrypt.compareSync(password, hash)`: true iff `hash` is the hash of
`password`. -/
def compareSync (password hash : String) : Bool := hash == hashSync password

/-- A JWT as seen by this server: `signed id` is a well-signed unexpired token
whose payload is `{ id }` (what `getToken` produces); `signedNoId` is a
well-signed token whose payload carries no `id` field; `malformed` stands for
any missing-signature / wrongly-signed / expired / garbage token string. -/
inductive Token where
  | signed (id : Nat)
  | signedNoId
  | malformed
deriving Repr, DecidableEq

/-- The decoded JWT payload: `tokenData`, with an optional `id` claim. -/
structure JwtPayload where
  id : Option Nat
deriving Repr, DecidableEq

/-- `jwt.verify(token, JWT_SECRET)`: returns the decoded payload when the
signature is valid and the token unexpired, and THROWS (`JsonWebTokenError` /
`TokenExpiredError`) otherwise. -/
def jwtVerify : Token → Except String JwtPayload
  | Token.signed i => .ok { id := some i }
  | Token.signedNoId => .ok { id := none }
  | Token.malformed => .error "jwt malformed"

/-- `getToken(user)`: `jwt.sign({ id: user._id }, JWT_SECRET, ...)`. -/
def getToken (user : User) : Token := Token.signed user._id

/-- `db.collection('Users').findOne({ _id })`: first user with that id. -/
def usersFindById (s : Store) (i : Nat) : Option User :=
  s.users.find? (fun u => u._id == i)

/-- `db.collection('Users').findOne({ email })`: first user with that email. -/
def usersFindByEmail (s : Store) (e : String) : Option User :=
  s.users.find? (fun u => u.email == e)

/-- `db.collection('Tasks').findOne({ _id })`: first task with that id. -/
def tasksFindById (s : Store) (i : Nat) : Option Task :=
  s.tasks.find? (fun t => t._id == i)

/-- Update the first list element satisfying `p` by `f` (MongoDB
`updateOne` / `findOneAndUpdate` touch a single document). -/
def updateFirst (p : Task → Bool) (f : Task → Task) : List Task → List Task
  | [] => []
  | t :: ts => if p t then f t :: ts else t :: updateFirst p f ts

/-- Remove the first list element satisfying `p` (MongoDB `deleteOne`). -/
def removeFirst (p : Task → Bool) : List Task → List Task
  | [] => []
  | t :: ts => if p t then ts else t :: removeFirst p ts

/-- `getUserFromToken(token, db)` (src/index.js:66-71): null for a falsy
header; otherwise `jwt.verify` (which throws on a bad token), then null when
the payload has no `id`, else the `Users` lookup by the decoded id. -/
def getUserFromToken (token : Option Token) (s : Store) :
    Except String (Option User) :=
  match token with
  | none => .ok none
  | some t =>
    match jwtVerify t with
    | .error e => .error e
    | .ok tokenData =>
      match tokenData.id with
      | none => .ok none
      | some i => .ok (usersFindById s i)

/-- The per-request context builder (src/index.js:172-178): the context's
`user` is whatever `getUserFromToken` produces for the `Authorization`
header; an exception from `jwt.verify` propagates and fails the request. -/
def buildContextUser (authorizationHeader : Option Token) (s : Store) :
    Except String (Option User) :=
  getUserFromToken authorizationHeader s

/-- `Query.myTaskLists` (src/index.js:75-78). -/
def myTaskLists (user : Option User) (s : Store) :
    (Except String (List Task)) × Store :=
  match user with
  | none => (.error "Authentication error", s)
  | some u => (.ok (s.tasks.filter (fun t => t.userIds.contains u._id)), s)

/-- `Query.getTaskList` (src/index.js:79-83). -/
def getTaskList (id : Nat) (user : Option User) (s : Store) :
    (Except String (Option Task)) × Store :=
  match user with
  | none => (.error "Authentication error", s)
  | some _ => (.ok (tasksFindById s id), s)

/-- The `signUp` input object. -/
structure SignUpInput where
  email : String
  password : String
  name : String
  avatar : Option String
deriving Repr, DecidableEq

/-- The `signIn` input object. -/
structure SignInInput where
  email : String
  password : String
deriving Repr, DecidableEq

/-- The `AuthUser` response envelope. -/
structure AuthUser where
  user : User
  token : Token
deriving Repr, DecidableEq

/-- `Mutation.signUp` (src/index.js:86-100): hash the password, insert the
new user unconditionally (no uniqueness check), re-read it by the inserted
id, and return it with a fresh token. -/
def signUp (input : SignUpInput) (s : Store) :
    (Except String AuthUser) × Store :=
  let hashedPassword := hashSync input.password
  let newUser : User :=
    { _id := s.nextId, name := input.name, email := input.email,
      password := hashedPassword, avatar := input.avatar }
  let s' : Store :=
    { s with users := s.users ++ [newUser], nextId := s.nextId + 1 }
  match usersFindById s' s.nextId with
  | some user => (.ok { user := user, token := getToken user }, s')
  | none => (.error "TypeError", s')

/-- `Mutation.signIn` (src/index.js:101-113): find the user by email, check
the password, throw `Invalid credentials` when the user is absent or the
password does not match. -/
def signIn (input : SignInInput) (s : Store) :
    (Except String AuthUser) × Store :=
  match usersFindByEmail s input.email with
  | none => (.error "Invalid credentials", s)
  | some user =>
    if compareSync input.password user.password then
      (.ok { user := user, token := getToken user }, s)
    else
      (.error "Invalid credentials", s)

/-- `Mutation.createTaskList` (src/index.js:114-127): insert a task with the
creator as sole member and `createdAt` the current time, then re-read it. -/
def createTaskList (title : String) (user : Option User) (s : Store) :
    (Except String (Option Task)) × Store :=
  match user with
  | none => (.error "Authentication error", s)
  | some u =>
    let newTaskList : Task :=
      { _id := s.nextId, title := title, createdAt := s.now,
        userIds := [u._id] }
    let s' : Store :=
      { s with tasks := s.tasks ++ [newTaskList], nextId := s.nextId + 1 }
    (.ok (tasksFindById s' s.nextId), s')

/-- `Mutation.updateTaskList` (src/index.js:128-133): a `findOneAndUpdate`
with `$set: { title }` and no options, so the store is updated but
`result.value` is the ORIGINAL document (MongoDB's default). -/
def updateTaskList (id : Nat) (title : String) (user : Option User)
    (s : Store) : (Except String (Option Task)) × Store :=
  match user with
  | none => (.error "Authentication error", s)
  | some _ =>
    match tasksFindById s id with
    | none => (.ok none, s)
    | some t =>
      (.ok (some t),
        { s with
          tasks := updateFirst (fun t2 => t2._id == id)
            (fun t2 => { t2 with title := title }) s.tasks })

/-- `Mutation.deleteTaskList` (src/index.js:134-139): `deleteOne` by id, then
return `true` unconditionally. -/
def deleteTaskList (id : Nat) (user : Option User) (s : Store) :
    (Except String Bool) × Store :=
  match user with
  | none => (.error "Authentication error", s)
  | some _ =>
    (.ok true, { s with tasks := removeFirst (fun t => t._id == id) s.tasks })

/-- `Mutation.addUserToTaskList` (src/index.js:140-151): null when the task
is absent; the unchanged task when `userId` is already a member; otherwise
`$push` the id in the store and return the found document with the id pushed
in memory. -/
def addUserToTaskList (taskListId userId : Nat) (user : Option User)
    (s : Store) : (Except String (Option Task)) × Store :=
  match user with
  | none => (.error "Authentication error", s)
  | some _ =>
    match tasksFindById s taskListId with
    | none => (.ok none, s)
    | some task =>
      if task.userIds.any (fun dbId => dbId == userId) then
        (.ok (some task), s)
      else
        (.ok (some { task with userIds := task.userIds ++ [userId] }),
          { s with
            tasks := updateFirst (fun t => t._id == taskListId)
              (fun t => { t with userIds := t.userIds ++ [userId] })
              s.tasks })

/-- The per-id lookup launched for position `i` of the member list by the
`TaskList.users` field resolver (src/index.js:160). -/
def userLookupAt (userIds : List Nat) (s : Store) (i : Nat) : Option User :=
  match userIds[i]? with
  | none => none
  | some uid => usersFindById s uid

/-- `Promise.all` over the member-list lookups, with an explicit completion
order: the lookup for index `i` settles when `i` comes up in `order`, and its
result is recorded against its index `i`, not against its completion rank. -/
def settleInOrder (userIds : List Nat) (s : Store) (order : List Nat) :
    List (Nat × Option User) :=
  order.map (fun i => (i, userLookupAt userIds s i))

/-- `Promise.all`'s result array: position `i` holds the settled value
recorded for index `i`, whatever rank it settled at. -/
def taskListUsers (userIds : List Nat) (s : Store) (order : List Nat) :
    List (Option User) :=
  (List.range userIds.length).map
    (fun i =>
      match (settleInOrder userIds s order).find? (fun p => p.1 == i) with
      | some p => p.2
      | none => none)

/-- The `TaskList.progress` field resolver (src/index.js:159). -/
def taskListProgress : Float := 0

/-! ### Demo stores used by witnesses and counterexamples -/

/-- A demo user for the C2 counterexample store. -/
def uC2 : User :=
  { _id := 0, name := "A", email := "a@x.com", password := hashSync "pw",
    avatar := none }

/-- A demo store for the C2 counterexample. -/
def sC2 : Store := { users := [uC2], tasks := [], nextId := 1, now := "t0" }

/-- A demo user for the C3 failing input. -/
def uC3 : User :=
  { _id := 0, name := "A", email := "a@x.com", password := hashSync "pw",
    avatar := none }

/-- The C3 failing input: a store holding one TaskList with id 1 and title
`old`. -/
def sC3 : Store :=
  { users := [uC3],
    tasks := [{ _id := 1, title := "old", createdAt := "t0", userIds := [0] }],
    nextId := 2, now := "t1" }

/-! ### Theorems -/

/-- C1: every protected operation (myTaskLists, getTaskList, createTaskList,
updateTaskList, deleteTaskList, addUserToTaskList) invoked with
`context.user = null` throws `Authentication error` and leaves the store
unchanged (no read result is produced and no write happens). -/
theorem protected_ops_fail_fast_unauthenticated (s : Store)
    (id tid uid : Nat) (title : String) :
    myTaskLists none s = (.error "Authentication error", s) ∧
    getTaskList id none s = (.error "Authentication error", s) ∧
    createTaskList title none s = (.error "Authentication error", s) ∧
    updateTaskList id title none s = (.error "Authentication error", s) ∧
    deleteTaskList id none s = (.error "Authentication error", s) ∧
    addUserToTaskList tid uid none s = (.error "Authentication error", s) :=
  ⟨rfl, rfl, rfl, rfl, rfl, rfl⟩

/-- C2 counterexample: on a malformed Authorization token the context builder
does NOT produce `user = null`; `jwt.verify` throws and the error propagates,
so the claim fails at this concrete input. -/
theorem getUserFromToken_malformed_not_null :
    buildContextUser (some Token.malformed) sC2 ≠ .ok none := by
  simp [buildContextUser, getUserFromToken, jwtVerify]

/-- C2 amended: only an absent (falsy) Authorization header yields
`user = null` without error; a well-signed token yields the user lookup (null
when the payload has no id), while a malformed, wrongly signed or expired
token makes `jwt.verify` throw, and the context builder propagates that error
instead of proceeding anonymously. -/
theorem getUserFromToken_amended (s : Store) (i : Nat) :
    getUserFromToken none s = .ok none ∧
    getUserFromToken (some (Token.signed i)) s = .ok (usersFindById s i) ∧
    getUserFromToken (some Token.signedNoId) s = .ok none ∧
    getUserFromToken (some Token.malformed) s = .error "jwt malformed" ∧
    buildContextUser (some Token.malformed) s = .error "jwt malformed" :=
  ⟨rfl, rfl, rfl, rfl, rfl⟩

/-- C3: at the failing input, authenticated `updateTaskList(1, "new")` does
update the stored document's title to `new`, but RETURNS the pre-update
document still carrying title `old`: `findOneAndUpdate` is called without
options, so `result.value` is the original document, contradicting the
spec's `return updated document`. -/
theorem updateTaskList_returns_stale_document :
    (updateTaskList 1 "new" (some uC3) sC3).1 =
      .ok (some { _id := 1, title := "old", createdAt := "t0",
                  userIds := [0] }) ∧
    (updateTaskList 1 "new" (some uC3) sC3).2.tasks =
      [{ _id := 1, title := "new", createdAt := "t0", userIds := [0] }] ∧
    updateTaskList 7 "new" (some uC3) sC3 = (.ok none, sC3) := by
  refine ⟨?_, ?_, ?_⟩ <;> rfl

/-! ### Helper lemmas about the store primitives -/

/-- `find?` after `updateFirst` with the same predicate: the first match is
the updated document, provided the update keeps the predicate true. -/
theorem find?_updateFirst (p : Task → Bool) (f : Task → Task)
    (l : List Task) (t : Task) (h : l.find? p = some t)
    (hf : p (f t) = true) :
    (updateFirst p f l).find? p = some (f t) := by
  induction l with
  | nil => simp at h
  | cons a as ih =>
    by_cases hp : p a
    · rw [List.find?_cons_of_pos _ hp] at h
      cases h
      simp [updateFirst, hp, List.find?_cons_of_pos _ hf]
    · rw [List.find?_cons_of_neg _ (by simpa using hp)] at h
      simp only [updateFirst, if_neg hp]
      rw [List.find?_cons_of_neg _ (by simpa using hp)]
      exact ih h

/-- `updateFirst` relates the old and new collection pointwise: the touched
document is the image under `f`, every other document is unchanged. -/
theorem forall₂_updateFirst (p : Task → Bool) (f : Task → Task)
    (r : Task → Task → Prop) (hrefl : ∀ t, r t t) (hf : ∀ t, r t (f t)) :
    ∀ l : List Task, List.Forall₂ r l (updateFirst p f l) := by
  intro l
  induction l with
  | nil => exact List.Forall₂.nil
  | cons a as ih =>
    simp only [updateFirst]
    by_cases hp : p a
    · rw [if_pos hp]
      exact List.Forall₂.cons (hf a)
        (List.forall₂_same.2 (fun x _ => hrefl x))
    · rw [if_neg hp]
      exact List.Forall₂.cons (hrefl a) ih

/-- C4: addUserToTaskList is idempotent.  If the TaskList exists and its
member list is duplicate-free for `uid`, the first call yields a TaskList
containing `uid` exactly once, and the second call with the same arguments
returns that same TaskList and leaves the store unchanged; if the TaskList
does not exist, the call returns null and does not touch the store. -/
theorem addUserToTaskList_idempotent (s : Store) (task : Task)
    (tid uid : Nat) (u : User) :
    (tasksFindById s tid = some task → task.userIds.count uid ≤ 1 →
      ∃ t1,
        (addUserToTaskList tid uid (some u) s).1 = .ok (some t1) ∧
        t1.userIds.count uid = 1 ∧
        addUserToTaskList tid uid (some u)
            (addUserToTaskList tid uid (some u) s).2 =
          (.ok (some t1), (addUserToTaskList tid uid (some u) s).2)) ∧
    (tasksFindById s tid = none →
      addUserToTaskList tid uid (some u) s = (.ok none, s)) := by
  constructor
  · intro h1 h2
    by_cases hmem : task.userIds.any (fun dbId => dbId == uid)
    · refine ⟨task, ?_, ?_, ?_⟩
      · simp [addUserToTaskList, h1, hmem]
      · have : uid ∈ task.userIds := by
          simpa using List.any_eq_true.1 hmem
        have h1c : 0 < task.userIds.count uid := List.count_pos_iff.2 this
        omega
      · simp [addUserToTaskList, h1, hmem]
    · have hnotmem : uid ∉ task.userIds := by
        intro hc
        exact hmem (List.any_eq_true.2 ⟨uid, hc, by simp⟩)
      refine ⟨{ task with userIds := task.userIds ++ [uid] }, ?_, ?_, ?_⟩
      · simp [addUserToTaskList, h1, hmem]
      · simp [List.count_append, List.count_eq_zero.2 hnotmem]
      · have hstep :
            (addUserToTaskList tid uid (some u) s).2 =
              { s with
                tasks := updateFirst (fun t => t._id == tid)
                  (fun t => { t with userIds := t.userIds ++ [uid] })
                  s.tasks } := by
          simp [addUserToTaskList, h1, hmem]
        have hp :=
          List.find?_some
            (show s.tasks.find? (fun t => t._id == tid) = some task from h1)
        have hfind :
            tasksFindById (addUserToTaskList tid uid (some u) s).2 tid =
              some { task with userIds := task.userIds ++ [uid] } := by
          rw [hstep]
          exact find?_updateFirst _ _ _ _ h1 (by simpa using hp)
        generalize (addUserToTaskList tid uid (some u) s).2 = s2 at hfind ⊢
        simp [addUserToTaskList, hfind]
  · intro h
    simp [addUserToTaskList, h]

/-- A demo user for the C4 witness store. -/
def uC4 : User :=
  { _id := 0, name := "A", email := "a@x.com", password := hashSync "pw",
    avatar := none }

/-- A demo store for the C4 witness: one TaskList with sole member 0. -/
def sC4 : Store :=
  { users := [uC4],
    tasks := [{ _id := 1, title := "T", createdAt := "t0", userIds := [0] }],
    nextId := 2, now := "t1" }

/-- C4 witness: adding user 4 to TaskList 1 twice yields a member list
containing 4 exactly once, and the second call changes nothing. -/
theorem addUserToTaskList_idempotent_witness :
    ∃ t1,
      (addUserToTaskList 1 4 (some uC4) sC4).1 = .ok (some t1) ∧
      t1.userIds.count 4 = 1 ∧
      addUserToTaskList 1 4 (some uC4)
          (addUserToTaskList 1 4 (some uC4) sC4).2 =
        (.ok (some t1), (addUserToTaskList 1 4 (some uC4) sC4).2) :=
  (addUserToTaskList_idempotent sC4
    { _id := 1, title := "T", createdAt := "t0", userIds := [0] }
    1 4 uC4).1 rfl (by decide)

/-- C5: creator membership.  `createTaskList` inserts the new TaskList with
the authenticated creator as its sole member, and neither `updateTaskList`
nor `addUserToTaskList` ever removes a member: the old member list of every
surviving document is a left factor of its new member list.  Hence any
member (in particular the creator) present before these operations is still
present after them. -/
theorem creator_membership_preserved (u : User) (title : String)
    (id tid uid : Nat) (s : Store) :
    (∃ t, (createTaskList title (some u) s).2.tasks = s.tasks ++ [t] ∧
      t.userIds = [u._id]) ∧
    ((updateTaskList id title (some u) s).2.tasks.map Task.userIds =
      s.tasks.map Task.userIds) ∧
    List.Forall₂ (fun t t' => ∃ l, t'.userIds = t.userIds ++ l)
      s.tasks (addUserToTaskList tid uid (some u) s).2.tasks := by
  refine ⟨?_, ?_, ?_⟩
  · exact ⟨_, rfl, rfl⟩
  · show (updateTaskList id title (some u) s).2.tasks.map Task.userIds = _
    unfold updateTaskList
    cases hfind : tasksFindById s id with
    | none => rfl
    | some t =>
      simp only []
      have : ∀ l : List Task,
          (updateFirst (fun t2 => t2._id == id)
            (fun t2 => { t2 with title := title }) l).map Task.userIds =
            l.map Task.userIds := by
        intro l
        induction l with
        | nil => rfl
        | cons a as ih =>
          simp only [updateFirst]
          by_cases hp : (a._id == id) = true
          · rw [if_pos hp]; simp
          · rw [if_neg hp]; simpa using ih
      simpa using this s.tasks
  · unfold addUserToTaskList
    cases hfind : tasksFindById s tid with
    | none =>
      exact List.forall₂_same.2 (fun x _ => ⟨[], (List.append_nil _).symm⟩)
    | some t =>
      by_cases hmem : t.userIds.any (fun dbId => dbId == uid)
      · simp only [if_pos hmem]
        exact List.forall₂_same.2 (fun x _ => ⟨[], (List.append_nil _).symm⟩)
      · simp only [if_neg hmem]
        exact forall₂_updateFirst _ _ _
          (fun t2 => ⟨[], (List.append_nil _).symm⟩)
          (fun t2 => ⟨[uid], rfl⟩) s.tasks

/-- `hashSync` is injective: two passwords with the same bcrypt-model hash
are equal. -/
theorem hashSync_injective (p q : String) (h : hashSync p = hashSync q) :
    p = q := by
  unfold hashSync at h
  have hd := congrArg String.data h
  simp [String.data_append] at hd
  cases p; cases q
  exact congrArg String.mk (by simpa using hd)

/-- C6: for a stored user `u` (the first `Users` document carrying email `e`)
whose password hash came from plaintext `p`, `signIn(e, p)` succeeds with an
AuthUser for `u`; `signIn(e, p')` for any other password fails with
`Invalid credentials`, as does `signIn` with an email matching no user; and
every `signIn` call either succeeds or fails with `Invalid credentials`,
never mutating the store. -/
theorem signIn_contract (s : Store) (u : User) (e p : String)
    (h1 : usersFindByEmail s e = some u) (h2 : u.password = hashSync p) :
    signIn { email := e, password := p } s =
      (.ok { user := u, token := getToken u }, s) ∧
    (∀ p', p' ≠ p → signIn { email := e, password := p' } s =
      (.error "Invalid credentials", s)) ∧
    (∀ e' p', usersFindByEmail s e' = none →
      signIn { email := e', password := p' } s =
        (.error "Invalid credentials", s)) ∧
    (∀ inp : SignInInput, (signIn inp s).2 = s ∧
      ((∃ a, (signIn inp s).1 = .ok a) ∨
        (signIn inp s).1 = .error "Invalid credentials")) := by
  refine ⟨?_, ?_, ?_, ?_⟩
  · simp [signIn, h1, compareSync, h2]
  · intro p' hne
    have hcmp : compareSync p' u.password = false := by
      rw [h2]
      simp only [compareSync, beq_eq_false_iff_ne, ne_eq]
      intro hc
      exact hne (hashSync_injective p' p hc.symm)
    simp [signIn, h1, hcmp]
  · intro e' p' hnone
    simp [signIn, hnone]
  · intro inp
    cases hfind : usersFindByEmail s inp.email with
    | none => simp [signIn, hfind]
    | some u' =>
      by_cases hc : compareSync inp.password u'.password
      · simp [signIn, hfind, hc]
      · simp [signIn, hfind, hc]

/-- A demo user for the C6 witness store. -/
def uC6 : User :=
  { _id := 0, name := "A", email := "a@x.com", password := hashSync "pw",
    avatar := none }

/-- A demo store for the C6 witness. -/
def sC6 : Store := { users := [uC6], tasks := [], nextId := 1, now := "t0" }

/-- C6 witness: the contract instantiated at a concrete store holding one
user with email `a@x.com` and password `pw`. -/
theorem signIn_contract_witness :
    signIn { email := "a@x.com", password := "pw" } sC6 =
      (.ok { user := uC6, token := getToken uC6 }, sC6) :=
  (signIn_contract sC6 uC6 "a@x.com" "pw" rfl rfl).1

/-- After removing the first match of `p`, no match of `p` remains, provided
the collection held at most one match (MongoDB guarantees `_id` unique). -/
theorem find?_removeFirst (p : Task → Bool) (l : List Task)
    (h : (l.filter p).length ≤ 1) :
    (removeFirst p l).find? p = none := by
  induction l with
  | nil => rfl
  | cons a as ih =>
    by_cases hp : p a = true
    · simp only [removeFirst, if_pos hp]
      have hflen : (as.filter p).length = 0 := by
        simp only [List.filter_cons, hp, if_true, List.length_cons] at h
        omega
      rw [List.length_eq_zero] at hflen
      rw [List.find?_eq_none]
      intro x hx hpx
      have : x ∈ as.filter p := List.mem_filter.2 ⟨hx, hpx⟩
      simp [hflen] at this
    · simp only [removeFirst, if_neg hp]
      rw [List.find?_cons_of_neg _ (by simpa using hp)]
      exact ih (by simpa [List.filter_cons, hp] using h)

/-- C7: authenticated `deleteTaskList(id)` returns `true` whether or not a
TaskList with that id existed (the store holding at most one document with
that id, as `_id` is a MongoDB primary key), and afterwards `getTaskList`
on the same id finds no document. -/
theorem deleteTaskList_true_then_not_found (s : Store) (id : Nat)
    (u u' : User)
    (h : (s.tasks.filter (fun t => t._id == id)).length ≤ 1) :
    (deleteTaskList id (some u) s).1 = .ok true ∧
    (getTaskList id (some u') (deleteTaskList id (some u) s).2).1 =
      .ok none := by
  constructor
  · rfl
  · have hnone := find?_removeFirst (fun t => t._id == id) s.tasks h
    simp [deleteTaskList, getTaskList, tasksFindById, hnone]

/-- A demo user for the C7 witness store. -/
def uC7 : User :=
  { _id := 0, name := "A", email := "a@x.com", password := hashSync "pw",
    avatar := none }

/-- A demo store for the C7 witness: one TaskList with id 1. -/
def sC7 : Store :=
  { users := [uC7],
    tasks := [{ _id := 1, title := "T", createdAt := "t0", userIds := [0] }],
    nextId := 2, now := "t1" }

/-- C7 witness: deleting TaskList 1 from the demo store returns true and a
subsequent `getTaskList 1` finds nothing. -/
theorem deleteTaskList_true_then_not_found_witness :
    (deleteTaskList 1 (some uC7) sC7).1 = .ok true ∧
    (getTaskList 1 (some uC7) (deleteTaskList 1 (some uC7) sC7).2).1 =
      .ok none :=
  deleteTaskList_true_then_not_found sC7 1 uC7 uC7 (by decide)

/-- In the settled results of the fan-out, the record for index `i` is the
lookup for index `i`, wherever `i` occurs in the completion order. -/
theorem find?_settleInOrder (userIds : List Nat) (s : Store) (i : Nat)
    (order : List Nat) (h : i ∈ order) :
    (settleInOrder userIds s order).find? (fun q => q.1 == i) =
      some (i, userLookupAt userIds s i) := by
  induction order with
  | nil => simp at h
  | cons j js ih =>
    simp only [settleInOrder, List.map_cons]
    by_cases hj : j = i
    · subst hj
      rw [List.find?_cons_of_pos _ (by simp)]
    · have hi : i ∈ js := by
        rcases List.mem_cons.1 h with h' | h'
        · exact absurd h'.symm hj
        · exact h'
      rw [List.find?_cons_of_neg _ (by simp [hj])]
      exact ih hi

/-- C8: the `TaskList.users` fan-out resolves one `Users` lookup per member
id and, for every completion order that settles each index, the result list
is exactly the member-id list mapped through the lookup — i.e. output order
matches member-list order regardless of completion order. -/
theorem taskListUsers_preserves_member_order (userIds : List Nat)
    (s : Store) (order : List Nat)
    (h : ∀ i, i < userIds.length → i ∈ order) :
    taskListUsers userIds s order =
      userIds.map (fun uid => usersFindById s uid) := by
  unfold taskListUsers
  apply List.ext_getElem?
  intro k
  rw [List.getElem?_map, List.getElem?_map]
  by_cases hk : k < userIds.length
  · rw [List.getElem?_range hk]
    cases hu : userIds[k]? with
    | none =>
      exact absurd (List.getElem?_eq_none_iff.1 hu) (by omega)
    | some uid =>
      rw [Option.map_some', Option.map_some']
      rw [find?_settleInOrder userIds s k order (h k hk)]
      simp [userLookupAt, hu]
  · have h1 : (List.range userIds.length)[k]? = none := by
      rw [List.getElem?_eq_none_iff, List.length_range]
      omega
    have h2 : userIds[k]? = none := by
      rw [List.getElem?_eq_none_iff]
      omega
    rw [h1, h2]
    rfl

/-- A demo store for the C8 witness: users 5 and 6. -/
def sC8 : Store :=
  { users :=
      [{ _id := 5, name := "B", email := "b@x.com",
         password := hashSync "pb", avatar := none },
       { _id := 6, name := "C", email := "c@x.com",
         password := hashSync "pc", avatar := none }],
    tasks := [], nextId := 7, now := "t0" }

/-- C8 witness: with member list `[6, 5]` and completion order `[1, 0]`
(second lookup settles first), the result still follows the member order. -/
theorem taskListUsers_preserves_member_order_witness :
    taskListUsers [6, 5] sC8 [1, 0] =
      [6, 5].map (fun uid => usersFindById sC8 uid) :=
  taskListUsers_preserves_member_order [6, 5] sC8 [1, 0] (by decide)

/-- C9: no resolver checks membership of the requester. For an authenticated
user whose id is NOT in the addressed TaskList's member list, getTaskList,
updateTaskList, deleteTaskList and addUserToTaskList all succeed. -/
theorem no_membership_requirement (s : Store) (u : User) (t : Task)
    (id uid : Nat) (title : String)
    (h1 : tasksFindById s id = some t) (_h2 : u._id ∉ t.userIds) :
    (getTaskList id (some u) s).1 = .ok (some t) ∧
    (updateTaskList id title (some u) s).1 = .ok (some t) ∧
    (deleteTaskList id (some u) s).1 = .ok true ∧
    (∃ t', (addUserToTaskList id uid (some u) s).1 = .ok (some t')) := by
  refine ⟨?_, ?_, rfl, ?_⟩
  · simp [getTaskList, h1]
  · simp [updateTaskList, h1]
  · by_cases hmem : uid ∈ t.userIds
    · exact ⟨t, by simp [addUserToTaskList, h1, hmem]⟩
    · exact ⟨{ t with userIds := t.userIds ++ [uid] },
        by simp [addUserToTaskList, h1, hmem]⟩

/-- A demo user for the C9 witness: id 9, not a member of the task below. -/
def uC9 : User :=
  { _id := 9, name := "Z", email := "z@x.com", password := hashSync "pz",
    avatar := none }

/-- A demo store for the C9 witness: one TaskList whose only member is 0. -/
def sC9 : Store :=
  { users := [uC9],
    tasks := [{ _id := 1, title := "T", createdAt := "t0", userIds := [0] }],
    nextId := 10, now := "t1" }

/-- C9 witness: user 9 is not a member of TaskList 1, yet all four
operations succeed on it. -/
theorem no_membership_requirement_witness :
    (getTaskList 1 (some uC9) sC9).1 =
      .ok (some { _id := 1, title := "T", createdAt := "t0",
                  userIds := [0] }) ∧
    (updateTaskList 1 "U" (some uC9) sC9).1 =
      .ok (some { _id := 1, title := "T", createdAt := "t0",
                  userIds := [0] }) ∧
    (deleteTaskList 1 (some uC9) sC9).1 = .ok true ∧
    (∃ t', (addUserToTaskList 1 4 (some uC9) sC9).1 = .ok (some t')) :=
  no_membership_requirement sC9 uC9
    { _id := 1, title := "T", createdAt := "t0", userIds := [0] }
    1 4 "U" (by decide) (by decide)

/-- In a collection whose ids are all below `n`, appending a document with
id `n` makes it the unique `findOne({_id: n})` result. -/
theorem find?_append_fresh (l : List User) (x : User) (n : Nat)
    (hwf : ∀ u ∈ l, u._id < n) (hx : x._id = n) :
    (l ++ [x]).find? (fun u => u._id == n) = some x := by
  induction l with
  | nil => simp [List.find?, hx]
  | cons a as ih =>
    have ha : (a._id == n) = false := by
      have := hwf a (List.mem_cons_self a as)
      simp only [beq_eq_false_iff_ne, ne_eq]
      omega
    rw [List.cons_append, List.find?_cons_of_neg _ (by simp [ha])]
    exact ih (fun u hu => hwf u (List.mem_cons_of_mem a hu))

/-- `signUp` on a store whose user ids are below the fresh-id counter:
the new user is inserted unconditionally (no email uniqueness check) and
returned with a token. -/
theorem signUp_eq (input : SignUpInput) (s : Store)
    (hwf : ∀ u ∈ s.users, u._id < s.nextId) :
    signUp input s =
      (.ok { user := { _id := s.nextId, name := input.name,
                       email := input.email,
                       password := hashSync input.password,
                       avatar := input.avatar },
             token := getToken { _id := s.nextId, name := input.name,
                                 email := input.email,
                                 password := hashSync input.password,
                                 avatar := input.avatar } },
        { s with
          users := s.users ++
            [{ _id := s.nextId, name := input.name, email := input.email,
               password := hashSync input.password,
               avatar := input.avatar }],
          nextId := s.nextId + 1 }) := by
  have hfind := find?_append_fresh s.users
    { _id := s.nextId, name := input.name, email := input.email,
      password := hashSync input.password, avatar := input.avatar }
    s.nextId hwf rfl
  simp [signUp, usersFindById, hfind]

/-- C10: `signUp` never checks email uniqueness. Two consecutive `signUp`
calls whose inputs share an email both succeed and insert two distinct
users (different ids) carrying the same email. -/
theorem signUp_allows_duplicate_email (s : Store) (i1 i2 : SignUpInput)
    (hwf : ∀ u ∈ s.users, u._id < s.nextId) (he : i1.email = i2.email) :
    ∃ a1 a2 : AuthUser,
      (signUp i1 s).1 = .ok a1 ∧
      (signUp i2 (signUp i1 s).2).1 = .ok a2 ∧
      a1.user._id ≠ a2.user._id ∧
      a1.user.email = i1.email ∧ a2.user.email = i1.email ∧
      (signUp i2 (signUp i1 s).2).2.users =
        s.users ++ [a1.user, a2.user] := by
  have e1 := signUp_eq i1 s hwf
  have hwf1 : ∀ u ∈ (signUp i1 s).2.users, u._id < (signUp i1 s).2.nextId := by
    rw [e1]
    intro u hu
    show u._id < s.nextId + 1
    rcases List.mem_append.1 hu with hu' | hu'
    · have := hwf u hu'
      omega
    · simp at hu'
      simp [hu']
  have e2 := signUp_eq i2 (signUp i1 s).2 hwf1
  refine ⟨_, _, by rw [e1], by rw [e2], ?_, ?_, ?_, ?_⟩
  · rw [e1]
    intro hc
    simp [e1] at hc
  · rfl
  · exact he.symm
  · rw [e2, e1]
    simp

/-- C10 witness: two sign-ups with email `a@x.com` on the empty store yield
two distinct users sharing that email. -/
theorem signUp_allows_duplicate_email_witness :
    ∃ a1 a2 : AuthUser,
      (signUp { email := "a@x.com", password := "p1", name := "A",
                avatar := none }
        { users := [], tasks := [], nextId := 0, now := "t0" }).1 = .ok a1 ∧
      (signUp { email := "a@x.com", password := "p2", name := "B",
                avatar := none }
        (signUp { email := "a@x.com", password := "p1", name := "A",
                  avatar := none }
          { users := [], tasks := [], nextId := 0, now := "t0" }).2).1 =
        .ok a2 ∧
      a1.user._id ≠ a2.user._id ∧
      a1.user.email = "a@x.com" ∧ a2.user.email = "a@x.com" ∧
      (signUp { email := "a@x.com", password := "p2", name := "B",
                avatar := none }
        (signUp { email := "a@x.com", password := "p1", name := "A",
                  avatar := none }
          { users := [], tasks := [], nextId := 0, now := "t0" }).2).2.users =
        [] ++ [a1.user, a2.user] :=
  signUp_allows_duplicate_email
    { users := [], tasks := [], nextId := 0, now := "t0" }
    { email := "a@x.com", password := "p1", name := "A", avatar := none }
    { email := "a@x.com", password := "p2", name := "B", avatar := none }
    (by intro u hu; simp at hu) rfl

end Taskade
